import Mathlib

/-
Shallow embedding of the chat server core of
TheanYeeSin/Python-RealTime-Chat-SocketIO:
`message_server.py` (class MessageServer) and the event handlers of
`socketio_server.py`.  Machine I/O is made explicit: the success of the
durable write and the current clock reading are parameters, the backing
JSON file is a `FileState` value threaded through the state.
-/

/-- A stored chat message: the `message_data` dict built by
`MessageServer.save_message` with keys name, message, timestamp, id. -/
structure MsgData where
  name : String
  message : String
  timestamp : String
  id : Nat
deriving DecidableEq

/-- The in-memory store `self.messages`: a Python dict mapping a room name to
its list of messages, modelled as an insertion-ordered association list
(Python dicts preserve insertion order). -/
abbrev Store := List (String × List MsgData)

/-- A JSON value, modelling what `json.load` can return for the contents of
`messages.json`. -/
inductive Json where
  | null : Json
  | bool : Bool → Json
  | num : Nat → Json
  | str : String → Json
  | arr : List Json → Json
  | obj : List (String × Json) → Json

/-- JSON encoding of one stored message, in the key order `save_message`
writes it. -/
def encodeMsg (m : MsgData) : Json :=
  .obj [("name", .str m.name), ("message", .str m.message),
        ("timestamp", .str m.timestamp), ("id", .num m.id)]

/-- Decoder for one stored message (the exact shape the program writes). -/
def decodeMsg : Json → Option MsgData
  | .obj [("name", .str n), ("message", .str m),
          ("timestamp", .str t), ("id", .num i)] => some ⟨n, m, t, i⟩
  | _ => none

/-- JSON encoding of a room's message list. -/
def encodeLog (l : List MsgData) : Json := .arr (l.map encodeMsg)

/-- Decode a list of JSON values as stored messages. -/
def decodeMsgs : List Json → Option (List MsgData)
  | [] => some []
  | j :: js =>
      match decodeMsg j, decodeMsgs js with
      | some m, some ms => some (m :: ms)
      | _, _ => none

/-- Decoder for a room's message list. -/
def decodeLog : Json → Option (List MsgData)
  | .arr js => decodeMsgs js
  | _ => none

/-- JSON encoding of the whole store, as `json.dump(self.messages, f)`
serialises it. -/
def encodeStore (s : Store) : Json :=
  .obj (s.map (fun e => (e.1, encodeLog e.2)))

/-- Decode the entries of a store object. -/
def decodeEntries : List (String × Json) → Option Store
  | [] => some []
  | (r, j) :: es =>
      match decodeLog j, decodeEntries es with
      | some l, some s => some ((r, l) :: s)
      | _, _ => none

/-- Decoder for the whole store. -/
def decodeStore : Json → Option Store
  | .obj es => decodeEntries es
  | _ => none

theorem decodeMsg_encodeMsg (m : MsgData) : decodeMsg (encodeMsg m) = some m := rfl

theorem decodeMsgs_map (l : List MsgData) :
    decodeMsgs (l.map encodeMsg) = some l := by
  induction l with
  | nil => rfl
  | cons h t ih => simp [decodeMsgs, decodeMsg_encodeMsg, ih]

theorem decodeLog_encodeLog (l : List MsgData) :
    decodeLog (encodeLog l) = some l := by
  simp [decodeLog, encodeLog, decodeMsgs_map]

theorem decodeEntries_map (s : Store) :
    decodeEntries (s.map (fun e => (e.1, encodeLog e.2))) = some s := by
  induction s with
  | nil => rfl
  | cons h t ih => simp [decodeEntries, decodeLog_encodeLog, ih]

theorem decodeStore_encodeStore (s : Store) :
    decodeStore (encodeStore s) = some s := by
  simp [decodeStore, encodeStore, decodeEntries_map]

/-- The state of `messages.json` on disk.  `content j` is a file whose text
parses as the JSON value `j`; `unparseable` is an existing file whose text is
not valid JSON (`json.load` raises `JSONDecodeError`); `absent` means
`os.path.exists` is false. -/
inductive FileState where
  | absent : FileState
  | unparseable : FileState
  | content : Json → FileState

/-- `MessageServer._load_all_messages`: absent file gives an empty dict, an
unparseable file is caught (`JSONDecodeError` branch) and gives an empty
dict, a parseable file yields its parsed contents.  The model only tracks
parseable files whose JSON has the store shape this program itself writes;
other JSON shapes are grouped with the caught-error branch. -/
def load_all_messages : FileState → Store
  | .absent => []
  | .unparseable => []
  | .content j => (decodeStore j).getD []

/-- The state of one `MessageServer` instance: the in-memory dict
`self.messages` plus the backing file. -/
structure ServerState where
  messages : Store
  file : FileState

/-- A `MessageServer` freshly constructed over the given file
(`self.messages = self._load_all_messages()`). -/
def mkServer (f : FileState) : ServerState :=
  { messages := load_all_messages f, file := f }

/-- Python dict lookup `d.get(k)` on an insertion-ordered association list. -/
def alookup {α : Type} (r : String) : List (String × α) → Option α
  | [] => none
  | (k, v) :: t => if k = r then some v else alookup r t

/-- Python dict assignment `d[k] = v`: replaces in place when the key exists,
otherwise appends at the end (insertion order). -/
def aset {α : Type} (r : String) (v : α) : List (String × α) → List (String × α)
  | [] => [(r, v)]
  | (k, w) :: t => if k = r then (k, v) :: t else (k, w) :: aset r v t

/-- An inbound event payload (the `data` dict): only the keys the server
reads are modelled; a `none` field is a missing key, `some ""` a present
empty value. -/
structure InData where
  room : Option String
  name : Option String
  message : Option String
deriving DecidableEq

/-- Python truthiness test `not x` for an optional string: true when the key
is missing or the value is the empty string. -/
def falsy : Option String → Bool
  | none => true
  | some s => decide (s = "")

/-- `MessageServer.save_message(room, message)`.  `writeOk` models whether
the durable write (`open` + `json.dump`) succeeds; `now` models
`datetime.now().isoformat()`.  Mirrors the source order: the room entry is
created if missing, `message_data` is built reading `data["name"]` and
`data["message"]` (a missing key raises `KeyError`, caught by the `except`
branch which returns `False` before any file access), the message is
appended to the in-memory log, and only then is the whole store written to
the file.  `open(self.message_file, "w")` truncates the file before
`json.dump` runs, so a failed write leaves the file in an error-dependent
state — the prior content if `open` itself raised, a truncated or partially
written file otherwise; `failFile` is that outcome, supplied with the rest of
the I/O environment.  The source has no rollback, so the in-memory append
survives a failed write. -/
def save_message (writeOk : Bool) (failFile : FileState) (room : String)
    (data : InData) (now : String) (st : ServerState) : Bool × ServerState :=
  let msgs1 := if (alookup room st.messages).isNone
               then aset room [] st.messages else st.messages
  match data.name, data.message with
  | some n, some m =>
      let log := (alookup room msgs1).getD []
      let md : MsgData := { name := n, message := m, timestamp := now, id := log.length }
      let msgs2 := aset room (log ++ [md]) msgs1
      if writeOk then (true, { messages := msgs2, file := .content (encodeStore msgs2) })
      else (false, { messages := msgs2, file := failFile })
  | _, _ => (false, { st with messages := msgs1 })

/-- `MessageServer.load_room_messages(room)`: `self.messages.get(room, [])`. -/
def load_room_messages (room : String) (st : ServerState) : List MsgData :=
  (alookup room st.messages).getD []

/-- The flask-socketio room registry: room name to the list of connection
sids currently in the room (insertion order). -/
abbrev Rooms := List (String × List String)

/-- The current members of a room (empty for an unknown room). -/
def membersOf (room : String) (rooms : Rooms) : List String :=
  (alookup room rooms).getD []

/-- `flask_socketio.join_room(room)`: adds the requesting sid to the room's
member set (a no-op when already a member). -/
def joinRoom (sid room : String) (rooms : Rooms) : Rooms :=
  let cur := (alookup room rooms).getD []
  aset room (if cur.contains sid then cur else cur ++ [sid]) rooms

/-- The state seen by the socketio handlers: the `MessageServer` instance
plus the transport layer's room registry. -/
structure SioState where
  server : ServerState
  rooms : Rooms

/-- Outbound events produced by a handler, in emission order.  `error` and
`chatHistory` are plain `emit` calls answered to the requesting sid only;
`roomMsg recipients payload` is `send(payload, to=room)`: flask-socketio
delivers it to every current member of the room, the sender included when it
is a member (`include_self` defaults to true). -/
inductive Emit where
  | error : String → String → Emit
  | chatHistory : String → List MsgData → Emit
  | roomMsg : List String → Json → Emit

/-- Whether an outbound event is a `chat_history` emission. -/
def Emit.isChatHistory : Emit → Bool
  | .chatHistory _ _ => true
  | _ => false

/-- One optional key of the raw inbound dict. -/
def optField (k : String) : Option String → List (String × Json)
  | some v => [(k, .str v)]
  | none => []

/-- The raw inbound `data` dict as a JSON value, as `send(data, to=room)`
forwards it; only the keys the server reads are modelled. -/
def encodeInData (d : InData) : Json :=
  .obj (optField "room" d.room ++ optField "name" d.name ++ optField "message" d.message)

/-- The system join-notice dict built by `handle_join`. -/
def joinNotice (name now : String) : Json :=
  .obj [("name", .str "System"),
        ("message", .str (name ++ " joined the room")),
        ("timestamp", .str now)]

/-- The `handle_message` socketio handler: validates room, name and message
for truthiness, then calls `save_message`; on success it broadcasts the raw
inbound `data` to the room, on failure it answers an error to the sender. -/
def handle_message (sid : String) (writeOk : Bool) (failFile : FileState)
    (data : InData) (now : String) (st : SioState) : List Emit × SioState :=
  if falsy data.room then ([.error sid "Room not specified"], st)
  else if falsy data.name || falsy data.message then
    ([.error sid "Invalid message format"], st)
  else
    let room := data.room.getD ""
    let res := save_message writeOk failFile room data now st.server
    if res.1 then
      ([.roomMsg (membersOf room st.rooms) (encodeInData data)],
       { st with server := res.2 })
    else
      ([.error sid "Failed to save message"], { st with server := res.2 })

/-- The `handle_join` socketio handler: validates room and name, joins the
room, emits `chat_history` to the joiner only when the stored history is
non-empty, then sends the system join-notice to the whole room (the joiner
is already a member at that point).  The `message` field of `data` is
ignored, as in the source. -/
def handle_join (sid : String) (data : InData) (now : String) (st : SioState) :
    List Emit × SioState :=
  if falsy data.room || falsy data.name then
    ([.error sid "Room and name are required"], st)
  else
    let room := data.room.getD ""
    let name := data.name.getD ""
    let rooms2 := joinRoom sid room st.rooms
    let prev := load_room_messages room st.server
    let hist : List Emit := if prev.isEmpty then [] else [.chatHistory sid prev]
    (hist ++ [.roomMsg (membersOf room rooms2) (joinNotice name now)],
     { st with rooms := rooms2 })

/-- One `save_message` call with its injected environment: whether the disk
write succeeds, the file state an interrupted write would leave behind, the
target room, the inbound name and message values (present and arbitrary, as
`handle_message` forwards them), and the clock reading. -/
structure Op where
  writeOk : Bool
  failFile : FileState
  room : String
  name : String
  message : String
  now : String

/-- The inbound dict of an operation. -/
def Op.data (op : Op) : InData :=
  { room := some op.room, name := some op.name, message := some op.message }

/-- Run one `save_message` call, keeping the resulting state. -/
def applyOp (st : ServerState) (op : Op) : ServerState :=
  (save_message op.writeOk op.failFile op.room op.data op.now st).2

/-- A fresh server started with no backing file. -/
def initialServer : ServerState := mkServer .absent

/-- Run a sequence of `save_message` calls from a fresh server. -/
def runOps (ops : List Op) : ServerState := ops.foldl applyOp initialServer

/-- One successful `save_message` call (the durable write succeeds). -/
structure SOp where
  room : String
  name : String
  message : String
  now : String

/-- The inbound dict of a successful operation. -/
def SOp.data (op : SOp) : InData :=
  { room := some op.room, name := some op.name, message := some op.message }

/-- Run one successful `save_message` call; the interrupted-write outcome is
irrelevant since the write succeeds, so an arbitrary value is supplied. -/
def applySOp (st : ServerState) (op : SOp) : ServerState :=
  (save_message true .unparseable op.room op.data op.now st).2

/-- Run a sequence of successful `save_message` calls from a fresh server. -/
def runSOps (ops : List SOp) : ServerState := ops.foldl applySOp initialServer

/-- The log that a sequence of appends to one room produces, with ids
counting up from `k`. -/
def buildLogFrom (k : Nat) : List SOp → List MsgData
  | [] => []
  | op :: t =>
      { name := op.name, message := op.message, timestamp := op.now, id := k }
        :: buildLogFrom (k + 1) t

theorem alookup_aset_self {α : Type} (r : String) (v : α) (l : List (String × α)) :
    alookup r (aset r v l) = some v := by
  induction l with
  | nil => simp [alookup, aset]
  | cons h t ih =>
      obtain ⟨k, w⟩ := h
      by_cases hk : k = r <;> simp [alookup, aset, hk, ih]

theorem alookup_aset_ne {α : Type} {r r' : String} (h : r' ≠ r) (v : α)
    (l : List (String × α)) : alookup r' (aset r v l) = alookup r' l := by
  induction l with
  | nil =>
      have h2 : ¬ r = r' := fun hh => h hh.symm
      simp [alookup, aset, h2]
  | cons hd t ih =>
      obtain ⟨k, w⟩ := hd
      by_cases hk : k = r <;> by_cases hk' : k = r' <;>
        simp_all [alookup, aset]

theorem save_message_frame (w : Bool) (f : FileState) (room : String) (d : InData)
    (now : String) (st : ServerState) {r' : String} (h : r' ≠ room) :
    alookup r' ((save_message w f room d now st).2.messages) = alookup r' st.messages := by
  obtain ⟨dr, dn, dm⟩ := d
  unfold save_message
  cases dn <;> cases dm <;>
    by_cases hl : (alookup room st.messages).isNone = true <;>
      cases w <;>
        simp [hl, alookup_aset_ne h]

theorem save_message_log (w : Bool) (f : FileState) (dr : Option String)
    (room n m now : String) (st : ServerState) :
    load_room_messages room ((save_message w f room ⟨dr, some n, some m⟩ now st).2) =
      load_room_messages room st ++
        [⟨n, m, now, (load_room_messages room st).length⟩] := by
  unfold save_message load_room_messages
  cases hl : alookup room st.messages with
  | none => cases w <;> simp [hl, alookup_aset_self]
  | some log => cases w <;> simp [hl, alookup_aset_self]

theorem save_message_true_result (f : FileState) (dr : Option String)
    (room n m now : String) (st : ServerState) :
    (save_message true f room ⟨dr, some n, some m⟩ now st).1 = true ∧
    (save_message true f room ⟨dr, some n, some m⟩ now st).2.file =
      .content (encodeStore ((save_message true f room ⟨dr, some n, some m⟩ now st).2.messages)) := by
  unfold save_message
  by_cases hl : (alookup room st.messages).isNone = true <;> simp [hl]

theorem save_message_false_result (f : FileState) (dr : Option String)
    (room n m now : String) (st : ServerState) :
    (save_message false f room ⟨dr, some n, some m⟩ now st).1 = false := by
  unfold save_message
  by_cases hl : (alookup room st.messages).isNone = true <;> simp [hl]

/-- Per-room sequence-id discipline: in every room the stored ids read
0, 1, 2, … in log order. -/
def seqIds (st : ServerState) : Prop :=
  ∀ r, (load_room_messages r st).map MsgData.id =
    List.range (load_room_messages r st).length

theorem seqIds_applyOp {st : ServerState} (h : seqIds st) (op : Op) :
    seqIds (applyOp st op) := by
  intro r
  by_cases hr : r = op.room
  · subst hr
    have hl : load_room_messages op.room (applyOp st op) =
        load_room_messages op.room st ++
          [⟨op.name, op.message, op.now, (load_room_messages op.room st).length⟩] :=
      save_message_log op.writeOk op.failFile (some op.room) op.room op.name
        op.message op.now st
    rw [hl]
    simp [h op.room, List.range_succ]
  · have hf : load_room_messages r (applyOp st op) = load_room_messages r st := by
      simp [load_room_messages, applyOp,
        save_message_frame op.writeOk op.failFile op.room op.data op.now st hr]
    rw [hf]
    exact h r

theorem seqIds_fold (ops : List Op) :
    ∀ st : ServerState, seqIds st → seqIds (ops.foldl applyOp st) := by
  induction ops with
  | nil => intro st h; exact h
  | cons op t ih => intro st h; exact ih (applyOp st op) (seqIds_applyOp h op)

theorem seqIds_initial : seqIds initialServer := by
  intro r
  rfl

theorem runS_log (ops : List SOp) :
    ∀ (st : ServerState) (r : String),
      load_room_messages r (ops.foldl applySOp st) =
        load_room_messages r st ++
          buildLogFrom (load_room_messages r st).length
            (ops.filter (fun op => op.room == r)) := by
  induction ops with
  | nil => intro st r; simp [buildLogFrom]
  | cons op t ih =>
      intro st r
      by_cases hr : op.room = r
      · subst hr
        have h2 : load_room_messages op.room (applySOp st op) =
            load_room_messages op.room st ++
              [⟨op.name, op.message, op.now, (load_room_messages op.room st).length⟩] :=
          save_message_log true .unparseable (some op.room) op.room op.name
            op.message op.now st
        rw [List.foldl_cons, ih (applySOp st op) op.room, h2]
        simp [buildLogFrom, List.filter_cons]
      · have hr' : r ≠ op.room := fun hh => hr hh.symm
        have hf : load_room_messages r (applySOp st op) = load_room_messages r st := by
          simp [load_room_messages, applySOp,
            save_message_frame true .unparseable op.room op.data op.now st hr']
        rw [List.foldl_cons, ih (applySOp st op) r, hf]
        simp [List.filter_cons, hr]

theorem buildLogFrom_length (l : List SOp) :
    ∀ k, (buildLogFrom k l).length = l.length := by
  induction l with
  | nil => intro k; rfl
  | cons op t ih => intro k; simp [buildLogFrom, ih]

/-- Whether the store read back from the backing file equals the in-memory
store. -/
def goodFile (st : ServerState) : Prop :=
  load_all_messages st.file = st.messages

theorem goodFile_applySOp (st : ServerState) (op : SOp) : goodFile (applySOp st op) := by
  have h := save_message_true_result .unparseable (some op.room) op.room op.name
    op.message op.now st
  unfold goodFile
  rw [show (applySOp st op).file =
        FileState.content (encodeStore ((applySOp st op).messages)) from h.2]
  simp [load_all_messages, decodeStore_encodeStore]

theorem goodFile_fold (ops : List SOp) :
    ∀ st : ServerState, goodFile st → goodFile (ops.foldl applySOp st) := by
  induction ops with
  | nil => intro st h; exact h
  | cons op t ih => intro st _; exact ih (applySOp st op) (goodFile_applySOp st op)

/-- Claim C1 (corrected): when the durable write fails, `save_message`
returns the failure indicator `False` (the exception is caught, none
escapes), but the in-memory log is NOT rolled back: it equals the pre-append
log with the newly stamped message appended.  This holds for every file
state the interrupted write may leave behind (`open(..., "w")` truncates
before `json.dump` runs, so that state ranges over the prior content, a
truncated file, or a partial write). -/
theorem claim_C1_theorem (f : FileState) (dr : Option String) (room n m now : String)
    (st : ServerState) :
    (save_message false f room ⟨dr, some n, some m⟩ now st).1 = false ∧
    load_room_messages room (save_message false f room ⟨dr, some n, some m⟩ now st).2 =
      load_room_messages room st ++ [⟨n, m, now, (load_room_messages room st).length⟩] :=
  ⟨save_message_false_result f dr room n m now st,
   save_message_log false f dr room n m now st⟩

/-- Claim C1 counterexample: on a fresh server a `save_message` call whose
durable write fails (here leaving a truncated, unparseable file) returns
`False`, yet the room's in-memory log afterwards has length 1 while it had
length 0 before the call — the log is not rolled back to its pre-append
state. -/
theorem claim_C1_counterexample :
    (save_message false .unparseable "r1" ⟨some "r1", some "alice", some "hi"⟩ "t0"
      initialServer).1 = false ∧
    (load_room_messages "r1"
      (save_message false .unparseable "r1" ⟨some "r1", some "alice", some "hi"⟩ "t0"
        initialServer).2).length = 1 ∧
    (load_room_messages "r1" initialServer).length = 0 :=
  ⟨rfl, rfl, rfl⟩

/-- Claim C2 (confirmed): after any sequence of `save_message` calls from a
fresh server, the ids stored in any room's log are exactly 0, 1, 2, … in
commit order — no gaps, no repeats, and counted per room, not globally. -/
theorem claim_C2_theorem (ops : List Op) (r : String) :
    (load_room_messages r (runOps ops)).map MsgData.id =
      List.range (load_room_messages r (runOps ops)).length :=
  seqIds_fold ops initialServer seqIds_initial r

/-- Claim C3 (confirmed): after any sequence of successful `save_message`
calls from a fresh server, `load_room_messages` on a room returns exactly the
messages appended to that room, in append order with sequential ids, one per
successful append; a never-touched room yields the empty list. -/
theorem claim_C3_theorem (ops : List SOp) (r : String) :
    load_room_messages r (runSOps ops) =
      buildLogFrom 0 (ops.filter (fun op => op.room == r)) ∧
    (load_room_messages r (runSOps ops)).length =
      (ops.filter (fun op => op.room == r)).length ∧
    load_room_messages r initialServer = [] := by
  have h0 : load_room_messages r initialServer = [] := rfl
  have h := runS_log ops initialServer r
  rw [h0] at h
  simp only [List.nil_append, List.length_nil] at h
  refine ⟨h, ?_, h0⟩
  rw [show runSOps ops = ops.foldl applySOp initialServer from rfl, h]
  exact buildLogFrom_length _ 0

/-- Claim C4 (confirmed): every server state reachable by successful appends
from a fresh server satisfies the round-trip property — reloading the
backing file written by `save_message` yields exactly the in-memory store,
same rooms, same messages, same order and ids. -/
theorem claim_C4_theorem (ops : List SOp) :
    load_all_messages ((runSOps ops).file) = (runSOps ops).messages :=
  goodFile_fold ops initialServer rfl

/-- Claim C5 (confirmed): `_load_all_messages` is total — an absent backing
file and an unparseable backing file both initialise an empty store, and
after startup on an unparseable file `load_room_messages` on any room
returns the empty list. -/
theorem claim_C5_theorem :
    load_all_messages .absent = [] ∧ load_all_messages .unparseable = [] ∧
    ∀ r, load_room_messages r (mkServer .unparseable) = [] :=
  ⟨rfl, rfl, fun _ => rfl⟩

theorem mem_joinRoom (sid room : String) (rooms : Rooms) :
    (membersOf room (joinRoom sid room rooms)).contains sid = true := by
  unfold joinRoom membersOf
  rw [alookup_aset_self]
  cases hc : ((alookup room rooms).getD []).contains sid <;>
    simp_all [List.contains, List.elem_eq_mem]

/-- A fresh socketio server: no backing file, no members anywhere. -/
def sio0 : SioState := { server := initialServer, rooms := [] }

/-- A fresh socketio server in which connection s1 is already a member of
room r1. -/
def sio1 : SioState := { server := initialServer, rooms := [("r1", ["s1"])] }

/-- The top-level keys of a JSON object. -/
def jsonKeys : Json → List String
  | .obj l => l.map Prod.fst
  | _ => []

/-- Claim C6 (corrected): the non-empty validation of name and text is done
by the `handle_message` handler, not by `save_message` itself; for every
inbound message event whose name or message value is missing or empty, the
handler emits a single error event to the sender and leaves the entire
state unchanged. -/
theorem claim_C6_theorem (sid : String) (w : Bool) (f : FileState) (d : InData)
    (now : String) (st : SioState)
    (h : falsy d.name = true ∨ falsy d.message = true) :
    (handle_message sid w f d now st).2 = st ∧
    ∃ emsg, (handle_message sid w f d now st).1 = [.error sid emsg] := by
  by_cases hr : falsy d.room = true
  · exact ⟨by simp [handle_message, hr], "Room not specified", by simp [handle_message, hr]⟩
  · rw [Bool.not_eq_true] at hr
    have hnm : (falsy d.name || falsy d.message) = true := by
      rcases h with h | h <;> simp [h]
    exact ⟨by simp [handle_message, hr, hnm], "Invalid message format",
      by simp [handle_message, hr, hnm]⟩

/-- Claim C6 witness: a concrete message event with an empty name is
rejected with an error and leaves the state unchanged. -/
theorem claim_C6_witness :
    (falsy (InData.mk (some "r1") (some "") (some "hi")).name = true ∨
      falsy (InData.mk (some "r1") (some "") (some "hi")).message = true) ∧
    ((handle_message "s1" true .absent ⟨some "r1", some "", some "hi"⟩ "t0" sio0).2 = sio0 ∧
      ∃ emsg, (handle_message "s1" true .absent ⟨some "r1", some "", some "hi"⟩ "t0" sio0).1 =
        [.error "s1" emsg]) :=
  ⟨Or.inl (by decide),
   claim_C6_theorem "s1" true .absent ⟨some "r1", some "", some "hi"⟩ "t0" sio0
     (Or.inl (by decide))⟩

/-- Claim C6 counterexample: `save_message` itself performs no emptiness
validation — called directly with a present-but-empty name and message it
returns `True` and stores the message. -/
theorem claim_C6_counterexample :
    (save_message true .absent "r1" ⟨some "r1", some "", some ""⟩ "t0" initialServer).1 = true ∧
    load_room_messages "r1"
      (save_message true .absent "r1" ⟨some "r1", some "", some ""⟩ "t0" initialServer).2 =
      [⟨"", "", "t0", 0⟩] :=
  ⟨rfl, rfl⟩

/-- Claim C7 (corrected): on a successful join the system join-notice is the
last event emitted and is sent to all current members of the room — the
joining connection included, since `join_room` runs first and
`send(..., to=room)` does not exclude the sender. -/
theorem claim_C7_theorem (sid room name now : String) (m0 : Option String)
    (st : SioState) (hr : room ≠ "") (hn : name ≠ "") :
    (handle_join sid ⟨some room, some name, m0⟩ now st).1.getLast? =
      some (.roomMsg (membersOf room (joinRoom sid room st.rooms)) (joinNotice name now)) ∧
    (membersOf room (joinRoom sid room st.rooms)).contains sid = true := by
  refine ⟨?_, mem_joinRoom sid room st.rooms⟩
  have hfr : falsy (some room) = false := by simp [falsy, hr]
  have hfn : falsy (some name) = false := by simp [falsy, hn]
  simp [handle_join, hfr, hfn, List.getLast?_concat]

/-- Claim C7 witness: a concrete successful join whose join-notice goes to
the room's member list, which contains the joiner. -/
theorem claim_C7_witness :
    (("r1" : String) ≠ "" ∧ ("alice" : String) ≠ "") ∧
    ((handle_join "s1" ⟨some "r1", some "alice", none⟩ "t0" sio0).1.getLast? =
        some (.roomMsg (membersOf "r1" (joinRoom "s1" "r1" sio0.rooms)) (joinNotice "alice" "t0")) ∧
      (membersOf "r1" (joinRoom "s1" "r1" sio0.rooms)).contains "s1" = true) :=
  ⟨⟨by decide, by decide⟩,
   claim_C7_theorem "s1" "r1" "alice" "t0" none sio0 (by decide) (by decide)⟩

/-- Claim C7 counterexample: when s1 joins the fresh room r1, the
join-notice's recipient set is exactly ["s1"] — it contains the joining
connection, so the set of recipients does not exclude the joiner. -/
theorem claim_C7_counterexample :
    (handle_join "s1" ⟨some "r1", some "alice", none⟩ "t0" sio0).1 =
      [.roomMsg ["s1"] (joinNotice "alice" "t0")] ∧
    (["s1"] : List String).contains "s1" = true :=
  ⟨rfl, rfl⟩

/-- Claim C8 (corrected): for a valid inbound message event that persists
successfully, the payload broadcast to the room is the raw inbound data dict
(keys room, name, message) — not the stored record; the timestamp and id
stamped at persistence time appear only in the in-memory/persisted log. -/
theorem claim_C8_theorem (sid : String) (f : FileState) (room n m now : String)
    (st : SioState) (hr : room ≠ "") (hn : n ≠ "") (hm : m ≠ "") :
    (handle_message sid true f ⟨some room, some n, some m⟩ now st).1 =
      [.roomMsg (membersOf room st.rooms) (encodeInData ⟨some room, some n, some m⟩)] ∧
    load_room_messages room
        (handle_message sid true f ⟨some room, some n, some m⟩ now st).2.server =
      load_room_messages room st.server ++
        [⟨n, m, now, (load_room_messages room st.server).length⟩] := by
  have hfr : falsy (some room) = false := by simp [falsy, hr]
  have hfn : falsy (some n) = false := by simp [falsy, hn]
  have hfm : falsy (some m) = false := by simp [falsy, hm]
  have hs := (save_message_true_result f (some room) room n m now st.server).1
  have hl := save_message_log true f (some room) room n m now st.server
  constructor
  · simp [handle_message, hfr, hfn, hfm, hs]
  · simp [handle_message, hfr, hfn, hfm, hs, hl]

/-- Claim C8 witness: a concrete valid message event broadcasts the raw
inbound dict to the room while the stored log gains the stamped record. -/
theorem claim_C8_witness :
    (("r1" : String) ≠ "" ∧ ("alice" : String) ≠ "" ∧ ("hello" : String) ≠ "") ∧
    ((handle_message "s1" true .absent ⟨some "r1", some "alice", some "hello"⟩ "t0" sio1).1 =
        [.roomMsg (membersOf "r1" sio1.rooms)
          (encodeInData ⟨some "r1", some "alice", some "hello"⟩)] ∧
      load_room_messages "r1"
          (handle_message "s1" true .absent ⟨some "r1", some "alice", some "hello"⟩ "t0"
            sio1).2.server =
        load_room_messages "r1" sio1.server ++
          [⟨"alice", "hello", "t0", (load_room_messages "r1" sio1.server).length⟩]) :=
  ⟨⟨by decide, by decide, by decide⟩,
   claim_C8_theorem "s1" .absent "r1" "alice" "hello" "t0" sio1
     (by decide) (by decide) (by decide)⟩

/-- Claim C8 counterexample: for a concrete valid message event the
broadcast payload is the raw inbound dict with keys room, name, message — it
carries no timestamp key and differs from the stored message record, which
was stamped with timestamp t0 and id 0. -/
theorem claim_C8_counterexample :
    (handle_message "s1" true .absent ⟨some "r1", some "alice", some "hello"⟩ "t0" sio1).1 =
      [.roomMsg ["s1"] (encodeInData ⟨some "r1", some "alice", some "hello"⟩)] ∧
    load_room_messages "r1"
        (handle_message "s1" true .absent ⟨some "r1", some "alice", some "hello"⟩ "t0"
          sio1).2.server =
      [⟨"alice", "hello", "t0", 0⟩] ∧
    jsonKeys (encodeInData ⟨some "r1", some "alice", some "hello"⟩) =
      ["room", "name", "message"] ∧
    encodeInData ⟨some "r1", some "alice", some "hello"⟩ ≠
      encodeMsg ⟨"alice", "hello", "t0", 0⟩ :=
  ⟨rfl, rfl, rfl, fun h => absurd (congrArg jsonKeys h) (by decide)⟩

/-- Claim C9 (corrected): on a successful join the `chat_history` event is
emitted once and to the joining connection only, but only when the room's
stored history is non-empty; when the history is empty no `chat_history`
event is emitted at all (the replay data is the empty sequence). -/
theorem claim_C9_theorem (sid room name now : String) (m0 : Option String)
    (st : SioState) (hr : room ≠ "") (hn : name ≠ "") :
    (load_room_messages room st.server = [] →
      (handle_join sid ⟨some room, some name, m0⟩ now st).1 =
        [.roomMsg (membersOf room (joinRoom sid room st.rooms)) (joinNotice name now)]) ∧
    (load_room_messages room st.server ≠ [] →
      (handle_join sid ⟨some room, some name, m0⟩ now st).1 =
        [.chatHistory sid (load_room_messages room st.server),
         .roomMsg (membersOf room (joinRoom sid room st.rooms)) (joinNotice name now)]) := by
  have hfr : falsy (some room) = false := by simp [falsy, hr]
  have hfn : falsy (some name) = false := by simp [falsy, hn]
  constructor
  · intro he; simp [handle_join, hfr, hfn, he]
  · intro he
    have hpe : (load_room_messages room st.server).isEmpty = false := by
      simpa [List.isEmpty_iff] using he
    simp [handle_join, hfr, hfn, hpe]

/-- Claim C9 witness: a concrete join to a fresh room takes the empty-history
branch, and a join to a room whose history is non-empty would emit the
history once to the joiner. -/
theorem claim_C9_witness :
    (("r1" : String) ≠ "" ∧ ("alice" : String) ≠ "") ∧
    ((load_room_messages "r1" sio0.server = [] →
        (handle_join "s1" ⟨some "r1", some "alice", none⟩ "t0" sio0).1 =
          [.roomMsg (membersOf "r1" (joinRoom "s1" "r1" sio0.rooms)) (joinNotice "alice" "t0")]) ∧
      (load_room_messages "r1" sio0.server ≠ [] →
        (handle_join "s1" ⟨some "r1", some "alice", none⟩ "t0" sio0).1 =
          [.chatHistory "s1" (load_room_messages "r1" sio0.server),
           .roomMsg (membersOf "r1" (joinRoom "s1" "r1" sio0.rooms)) (joinNotice "alice" "t0")])) :=
  ⟨⟨by decide, by decide⟩,
   claim_C9_theorem "s1" "r1" "alice" "t0" none sio0 (by decide) (by decide)⟩

/-- Claim C9 counterexample: alice joins the fresh room r1 — the replay data
is empty and the handler emits no `chat_history` event at all, contradicting
that the event is sent on every successful join including the empty case. -/
theorem claim_C9_counterexample :
    load_room_messages "r1" sio0.server = [] ∧
    ((handle_join "s1" ⟨some "r1", some "alice", none⟩ "t0" sio0).1.filter
      Emit.isChatHistory) = [] :=
  ⟨rfl, rfl⟩

/-- Claim C10 (confirmed): a successful `save_message` to one room changes no
other room's in-memory log, and the file it writes holds the entire store,
so reloading it reproduces every room's log — in particular every other
room's persisted log verbatim. -/
theorem claim_C10_theorem (f : FileState) (dr : Option String) (room n m now : String)
    (st : ServerState) (r' : String) (h : r' ≠ room) :
    (save_message true f room ⟨dr, some n, some m⟩ now st).1 = true ∧
    alookup r' ((save_message true f room ⟨dr, some n, some m⟩ now st).2.messages) =
      alookup r' st.messages ∧
    load_all_messages ((save_message true f room ⟨dr, some n, some m⟩ now st).2.file) =
      (save_message true f room ⟨dr, some n, some m⟩ now st).2.messages := by
  have hs := save_message_true_result f dr room n m now st
  refine ⟨hs.1, save_message_frame true f room ⟨dr, some n, some m⟩ now st h, ?_⟩
  rw [hs.2]
  simp [load_all_messages, decodeStore_encodeStore]

/-- Claim C10 witness: a concrete successful save to r1 leaves room r2's
entry untouched and writes a file that reloads to the whole updated store. -/
theorem claim_C10_witness :
    (("r2" : String) ≠ "r1") ∧
    ((save_message true .absent "r1" ⟨some "r1", some "alice", some "hi"⟩ "t0"
        initialServer).1 = true ∧
      alookup "r2"
          ((save_message true .absent "r1" ⟨some "r1", some "alice", some "hi"⟩ "t0"
            initialServer).2.messages) =
        alookup "r2" initialServer.messages ∧
      load_all_messages
          ((save_message true .absent "r1" ⟨some "r1", some "alice", some "hi"⟩ "t0"
            initialServer).2.file) =
        (save_message true .absent "r1" ⟨some "r1", some "alice", some "hi"⟩ "t0"
          initialServer).2.messages) :=
  ⟨by decide,
   claim_C10_theorem .absent (some "r1") "r1" "alice" "hi" "t0" initialServer "r2"
     (by decide)⟩
